import Mathlib

/-!
Verification development for the slitchat repository (src/slitchat/app.py).

The embedding models, directly from the source:
  * the JSON chunk extraction and accumulation loop of send_message (stream=True),
  * the stream=False call of send_message (which, the function being a
    generator, returns a generator yielding nothing, the branch's pair
    surfacing only as the StopIteration value),
  * the inline system-prompt command scanning in main (startswith + two str.find calls),
  * get_ollama_models (subprocess output parsing),
  * the turn-handling loop of main (user append, stream consumption, commit).

External effects (the HTTP library, json.loads, subprocess) are modelled by their
observable outcomes: a streamed HTTP body is a list of lines, each line recorded as
either blank, failing JSON decoding, or the decoded JSON value; a transport error is
the exception raised by the request or mid-iteration, carrying its str(e) rendering.
-/

set_option maxHeartbeats 1000000

namespace Slitchat

/-- Decoded JSON values, as produced by json.loads: null, booleans, numbers (the
numeric payload is irrelevant to the code, which only tests membership and
indexes by string keys), strings, arrays and objects. -/
inductive Json where
  | null
  | bool (b : Bool)
  | num (n : Int)
  | str (s : String)
  | arr (elems : List Json)
  | obj (fields : List (String × Json))

/-- Key lookup in a decoded JSON object (Python dict access; decoded objects have
unique keys). -/
def lookupKey (fields : List (String × Json)) (k : String) : Option Json :=
  match fields with
  | [] => none
  | (k', v) :: rest => if k' = k then some v else lookupKey rest k

/-- Whether the first list is an initial segment of the second (character level). -/
def startsWithChars : List Char → List Char → Bool
  | [], _ => true
  | _ :: _, [] => false
  | p :: ps, c :: cs => p == c && startsWithChars ps cs

/-- Python str.find(pat, i) restricted to the tail of the haystack: scanning list s
whose first element sits at absolute position i, return the least absolute
position at which pat occurs, or none. -/
def findOcc (pat : List Char) : List Char → Nat → Option Nat
  | [], i => if startsWithChars pat [] then some i else none
  | c :: rest, i =>
    if startsWithChars pat (c :: rest) then some i
    else findOcc pat rest (i + 1)

/-- Python equality k == v between a string k and a decoded JSON value v: true only
for an equal JSON string. -/
def pyEqStr (k : String) : Json → Bool
  | .str s => s = k
  | _ => false

/-- Python membership test k in v on a decoded JSON value: key test on an object,
element equality on an array, substring test on a string; raises TypeError
(modelled as none) on null, booleans and numbers. -/
def pyIn (k : String) : Json → Option Bool
  | .obj fields => some (lookupKey fields k).isSome
  | .arr xs => some (xs.any (pyEqStr k))
  | .str s => some (findOcc k.data s.data 0).isSome
  | _ => none

/-- Python subscription v[k] with a string key: object field access (none = KeyError
when absent); raises TypeError (none) on every other value. -/
def pyIndex (k : String) : Json → Option Json
  | .obj fields => lookupKey fields k
  | _ => none

/-- Outcome of evaluating the guard
if "message" in chunk and "content" in chunk["message"]
followed by the extraction chunk["message"]["content"]: the extracted value,
guard false, or a raised exception. -/
inductive GuardOutcome where
  | found (v : Json)
  | absent
  | raises

/-- Evaluates the message/content guard and extraction of send_message on a decoded
chunk, with Python dynamic semantics for membership and subscription. -/
def extractMsgContent (j : Json) : GuardOutcome :=
  match pyIn "message" j with
  | none => .raises
  | some false => .absent
  | some true =>
    match pyIndex "message" j with
    | none => .raises
    | some m =>
      match pyIn "content" m with
      | none => .raises
      | some false => .absent
      | some true =>
        match pyIndex "content" m with
        | none => .raises
        | some v => .found v

/-- One line of the streamed HTTP body, recorded by its decoding outcome: an empty
line (falsy, skipped by the loop guard), a line on which json.loads raises
JSONDecodeError (skipped by the except/continue), or the decoded JSON value. -/
inductive RawLine where
  | blank
  | malformed
  | parsed (j : Json)

/-- Observable behaviour of one streamed HTTP exchange: the body lines that
iteration delivers, then optionally a transport exception (connection failure,
raise_for_status, or a mid-iteration error) whose str(e) rendering is
transport; excText is the str(e) rendering of a processing exception
(TypeError and similar), used only when chunk processing raises. -/
structure StreamScript where
  lines : List RawLine
  transport : Option String
  excText : String

/-- The body of the streaming for-loop of send_message: processes lines in order,
accumulating response_text and emitting one (response_text, False) element per
extracted content string; returns the emitted elements and whether a
processing exception aborted the loop. -/
def streamLoop (acc : String) : List RawLine → List (String × Bool) × Bool
  | [] => ([], false)
  | .blank :: rest => streamLoop acc rest
  | .malformed :: rest => streamLoop acc rest
  | .parsed j :: rest =>
    match extractMsgContent j with
    | .absent => streamLoop acc rest
    | .raises => ([], true)
    | .found v =>
      match v with
      | .str c =>
        ((acc ++ c, false) :: (streamLoop (acc ++ c) rest).1,
          (streamLoop (acc ++ c) rest).2)
      | _ => ([], true)

/-- The full element sequence produced by send_message with stream=True on one
exchange: the accumulated chunk elements, then a single (str(e), True) element
when a processing exception or a transport exception occurred. -/
def send_message_stream (s : StreamScript) : List (String × Bool) :=
  match streamLoop "" s.lines with
  | (out, true) => out ++ [(s.excText, true)]
  | (out, false) =>
    match s.transport with
    | some m => out ++ [(m, true)]
    | none => out

/-- Concatenation of a list of strings in order. -/
def concatAll : List String → String
  | [] => ""
  | c :: cs => c ++ concatAll cs

/-- The element sequence yielded by a run of successful content chunks starting
from accumulated text acc: one (accumulated-so-far, false) pair per chunk. -/
def accumOutputs (acc : String) : List String → List (String × Bool)
  | [] => []
  | c :: cs => (acc ++ c, false) :: accumOutputs (acc ++ c) cs

/-- The content string a line contributes to the accumulator, when any. -/
def lineYield : RawLine → Option String
  | .blank => none
  | .malformed => none
  | .parsed j =>
    match extractMsgContent j with
    | .found (.str c) => some c
    | _ => none

/-- A line whose processing does not raise: blank, malformed (skipped), guard
false, or a string content chunk. -/
def lineOk : RawLine → Bool
  | .blank => true
  | .malformed => true
  | .parsed j =>
    match extractMsgContent j with
    | .found (.str _) => true
    | .absent => true
    | _ => false

example : send_message_stream
    ⟨[.parsed (.obj [("message", .obj [("content", .str "Hel")])]),
      .parsed (.obj [("message", .obj [("content", .str "lo")])])], none, ""⟩
    = [("Hel", false), ("Hello", false)] := by decide

example : send_message_stream
    ⟨[.parsed (.obj [("message", .obj [("content", .str "Hel")])]),
      .malformed,
      .parsed (.obj [("message", .obj [("content", .str "!")])])], none, ""⟩
    = [("Hel", false), ("Hel!", false)] := by decide

example : send_message_stream ⟨[], some "connection refused", ""⟩
    = [("connection refused", true)] := by decide

/-- Observable behaviour of the non-streaming HTTP exchange: either a transport
exception (connection failure, raise_for_status, or response.json() failing)
with its str(e) rendering, or the decoded response body. -/
inductive BlockingOutcome where
  | transportError (msg : String)
  | body (j : Json)

/-- The pair computed by the body of the stream=False branch of send_message:
(data.message.content, False) when the guard succeeds, the fixed diagnostic
with True when the guard is false, and (str(e), True) when the request or the
guard evaluation raises (excText renders a processing exception). Because
send_message contains yield statements and is therefore a generator function,
this pair is never returned to a caller: the return statements of the branch
only set the value carried by the StopIteration raised at exhaustion. -/
def nonStreamBranchValue (excText : String) : BlockingOutcome → Json × Bool
  | .transportError m => (.str m, true)
  | .body j =>
    match extractMsgContent j with
    | .found v => (v, false)
    | .absent => (.str "Unexpected response format", true)
    | .raises => (.str excText, true)

/-- Observable behaviour of calling send_message with stream=False and exhausting
the generator object the call returns: the list of yielded elements - empty,
since no yield statement is reachable in the stream=False branch - together
with the value of the StopIteration raised at exhaustion, which is the pair
the branch body computed. -/
def send_message_nonstream (excText : String) (o : BlockingOutcome) :
    List (Json × Bool) × (Json × Bool) :=
  ([], nonStreamBranchValue excText o)

/-- A chat message as stored in st.session_state.messages: a role/content pair. -/
structure ChatMessage where
  role : String
  content : String
deriving DecidableEq, Repr

/-- Classification of one submitted input line by the inline command handling in
main: a plain conversational message, a recognized system-prompt update
carrying the extracted text, or a rejected command (the st.error branches). -/
inductive ParseResult where
  | conversational (text : String)
  | systemPromptUpdate (text : String)
  | parseError (reason : String)
deriving DecidableEq

/-- The characters of the command trigger tested by user_input.startswith. -/
def cmdChars : List Char := "/set system".data

/-- The three-character delimiter searched for by user_input.find. -/
def tq : List Char := "\"\"\"".data

/-- The inline command handling of main: startswith("/set system"), then
find(tq, 12), then find(tq, opening + 3), then the verbatim slice
user_input[opening + 3 : closing]; inputs without the trigger are plain
conversational messages. -/
def parseInput (input : String) : ParseResult :=
  if startsWithChars cmdChars input.data then
    match findOcc tq (input.data.drop 12) 12 with
    | none => .parseError "missing opening delimiter"
    | some ps =>
      match findOcc tq (input.data.drop (ps + 3)) (ps + 3) with
      | none => .parseError "missing closing delimiter"
      | some pe => .systemPromptUpdate (String.mk ((input.data.take pe).drop (ps + 3)))
  else .conversational input

example : parseInput "/set system \"\"\"Be concise.\"\"\""
    = .systemPromptUpdate "Be concise." := by decide

example : parseInput "/set system \"\"\"\"\"\"" = .systemPromptUpdate "" := by decide

example : parseInput "/set system no quotes"
    = .parseError "missing opening delimiter" := by decide

example : parseInput "hello" = .conversational "hello" := by decide

/-- Observable behaviour of the subprocess.run invocation of the enumeration
command: an exception (command cannot run, or check=True on a non-zero exit)
with its str(e) rendering, or the captured standard output. -/
inductive CmdResult where
  | failure (msg : String)
  | output (stdout : String)

/-- Python str.strip() with no argument: remove leading and trailing whitespace
characters. -/
def stripChars (cs : List Char) : List Char :=
  ((cs.dropWhile Char.isWhitespace).reverse.dropWhile Char.isWhitespace).reverse

/-- Splitting a character list at every separator character (Python
str.split(sep) semantics: preserves empty pieces, one more piece than
separators). -/
def splitOnPred (p : Char → Bool) : List Char → List (List Char)
  | [] => [[]]
  | c :: rest =>
    if p c then [] :: splitOnPred p rest
    else
      match splitOnPred p rest with
      | [] => [[c]]
      | l :: ls => (c :: l) :: ls

/-- Python line.split() with no argument: split on whitespace runs, discarding
empty tokens. -/
def pySplitWs (line : String) : List (List Char) :=
  (splitOnPred (fun c => c.isWhitespace) line.data).filter (fun t => t ≠ [])

/-- The first whitespace-delimited token of a line (line.split()[0]; the caller
only evaluates it on lines whose strip() is non-empty, so the list is
non-empty there). -/
def firstToken (line : String) : String :=
  String.mk ((pySplitWs line).headD [])

/-- The parsing loop of get_ollama_models over the data lines (the header already
dropped): keep the first token of every line whose strip() is non-empty. -/
def modelsOfLines : List String → List String
  | [] => []
  | line :: rest =>
    if stripChars line.data ≠ [] then firstToken line :: modelsOfLines rest
    else modelsOfLines rest

/-- get_ollama_models: on success, strip the captured stdout, split it on
newlines, drop the header line and collect first tokens of non-blank lines;
on any exception, display an error notice (the boolean: true when st.error
ran) and return the empty list. -/
def get_ollama_models (r : CmdResult) : List String × Bool :=
  match r with
  | .failure _ => ([], true)
  | .output out =>
    let lines := (splitOnPred (fun c => c = '\n') (stripChars out.data)).map String.mk
    (modelsOfLines (lines.drop 1), false)

example : get_ollama_models (.output "NAME ID SIZE\nllama2:latest abc 3.8GB\nmistral:7b def 4.1GB")
    = (["llama2:latest", "mistral:7b"], false) := by decide

example : get_ollama_models (.output "NAME ID SIZE MODIFIED") = ([], false) := by decide

example : get_ollama_models (.failure "ollama not found") = ([], true) := by decide

/-- The str(NameError) raised by the post-loop commit check of main when the
streamed sequence produced no element, leaving is_error unassigned. -/
def nameErrText : String := "NameError: name is_error is not defined"

/-- The consumption for-loop of main over the yielded (response_chunk, is_error)
pairs: full_response is overwritten by each non-error chunk; the loop breaks
at the first error element. Returns the final full_response together with the
last value bound to is_error, or none when the loop body never ran (is_error
stays unbound). -/
def consumeLoop (full : String) : List (String × Bool) → String × Option Bool
  | [] => (full, none)
  | (_, true) :: _ => (full, some true)
  | (c, false) :: rest =>
    match consumeLoop c rest with
    | (f, none) => (f, some false)
    | (f, some b) => (f, some b)

/-- Result of one conversational turn of main: the api_messages payload posted to
the backend, and either the transcript after the turn or the NameError raised
by the unbound is_error read. -/
structure TurnResult where
  sent : List ChatMessage
  result : Except String (List ChatMessage)

/-- One conversational turn of main: append the user message to the transcript,
build api_messages from it, drive the streamed sequence, and commit the
assistant message only when the final is_error read is False; reading an
unbound is_error (empty sequence) raises NameError. -/
def runTurn (messages : List ChatMessage) (user_input : String) (s : StreamScript) :
    TurnResult :=
  let messages' := messages ++ [ChatMessage.mk "user" user_input]
  let api_messages := messages'.map (fun m => ChatMessage.mk m.role m.content)
  let consumed := consumeLoop "" (send_message_stream s)
  { sent := api_messages
    result :=
      match consumed.2 with
      | none => Except.error nameErrText
      | some true => Except.ok messages'
      | some false => Except.ok (messages' ++ [ChatMessage.mk "assistant" consumed.1]) }

/-- A sequence of conversational turns, threading the transcript; stops at the
first raised NameError. -/
def runTurns (messages : List ChatMessage) :
    List (String × StreamScript) → Except String (List ChatMessage)
  | [] => .ok messages
  | (u, s) :: rest =>
    match (runTurn messages u s).result with
    | .error e => .error e
    | .ok m' => runTurns m' rest

/-- The streamed sequence of this exchange ends with an error element: chunk
processing raised, or the transport raised. -/
def endsWithError (s : StreamScript) : Bool :=
  (streamLoop "" s.lines).2 || s.transport.isSome

/-- A streamed exchange that completes without error and yields at least one
content chunk: no transport exception, every line processes cleanly, and at
least one line contributes content (without the last condition the turn
handler raises NameError). -/
abbrev cleanScript (s : StreamScript) : Prop :=
  s.transport = none ∧ (∀ l ∈ s.lines, lineOk l = true)
    ∧ s.lines.filterMap lineYield ≠ []

/-- The transcript built by a sequence of clean turns: one user message and one
assistant message (the concatenated chunk contents) per turn, in order. -/
def turnsTranscript : List (String × StreamScript) → List ChatMessage
  | [] => []
  | (u, s) :: rest =>
    ChatMessage.mk "user" u
      :: ChatMessage.mk "assistant" (concatAll (s.lines.filterMap lineYield))
      :: turnsTranscript rest

/-- The per-session state bag relevant to input handling: the transcript and the
current system prompt. -/
structure SessionState where
  messages : List ChatMessage
  system_prompt : String
deriving DecidableEq

/-- The input dispatch of main: a recognized system-prompt update replaces
system_prompt (and is not added to the message history); a rejected command
only displays an error, leaving the state unchanged; a conversational message
runs one turn against the given exchange. -/
def handleInput (st : SessionState) (input : String) (s : StreamScript) :
    Except String SessionState :=
  match parseInput input with
  | .systemPromptUpdate t => .ok { st with system_prompt := t }
  | .parseError _ => .ok st
  | .conversational text =>
    match (runTurn st.messages text s).result with
    | .error e => .error e
    | .ok m' => .ok { st with messages := m' }

/-! Support lemmas. -/

/-- findOcc returns the least absolute position at or after the scan start at
which the pattern occurs. -/
theorem findOcc_some (pat : List Char) :
    ∀ (s : List Char) (d i : Nat),
      startsWithChars pat (s.drop d) = true →
      (∀ e < d, startsWithChars pat (s.drop e) = false) →
      findOcc pat s i = some (i + d) := by
  intro s
  induction s with
  | nil =>
    intro d i h hmin
    cases d with
    | zero =>
      rw [List.drop_nil] at h
      simp [findOcc, h]
    | succ d =>
      have h0 := hmin 0 (Nat.succ_pos d)
      rw [List.drop_nil] at h h0
      rw [h] at h0
      exact Bool.noConfusion h0
  | cons c rest ih =>
    intro d i h hmin
    cases d with
    | zero =>
      rw [List.drop_zero] at h
      simp [findOcc, h]
    | succ d =>
      have h0 : startsWithChars pat (c :: rest) = false := by
        have := hmin 0 (Nat.succ_pos d)
        rwa [List.drop_zero] at this
      have hmin' : ∀ e < d, startsWithChars pat (rest.drop e) = false :=
        fun e he => by simpa using hmin (e + 1) (by omega)
      have ih' := ih d (i + 1) (by simpa using h) hmin'
      have heq : i + 1 + d = i + (d + 1) := by omega
      simp only [findOcc, h0, Bool.false_eq_true, if_false]
      rw [ih', heq]

/-- findOcc returns none when the pattern occurs at no position of the scanned
tail. -/
theorem findOcc_none (pat : List Char) :
    ∀ (s : List Char) (i : Nat),
      (∀ d, startsWithChars pat (s.drop d) = false) →
      findOcc pat s i = none := by
  intro s
  induction s with
  | nil =>
    intro i h
    have h0 := h 0
    rw [List.drop_nil] at h0
    simp [findOcc, h0]
  | cons c rest ih =>
    intro i h
    have h0 := h 0
    rw [List.drop_zero] at h0
    simp only [findOcc, h0, Bool.false_eq_true, if_false]
    exact ih (i + 1) fun d => by simpa using h (d + 1)

/-- On lines that all process cleanly, the streaming loop emits exactly the
accumulated outputs of the extracted content strings and reports no
exception. -/
theorem streamLoop_clean :
    ∀ (lines : List RawLine) (acc : String),
      (∀ l ∈ lines, lineOk l = true) →
      streamLoop acc lines = (accumOutputs acc (lines.filterMap lineYield), false) := by
  intro lines
  induction lines with
  | nil => intro acc h; rfl
  | cons l rest ih =>
    intro acc h
    have hl : lineOk l = true := h l (List.mem_cons_self l rest)
    have hr : ∀ x ∈ rest, lineOk x = true := fun x hx => h x (List.mem_cons_of_mem l hx)
    cases l with
    | blank => simp [streamLoop, lineYield, List.filterMap_cons, ih acc hr]
    | malformed => simp [streamLoop, lineYield, List.filterMap_cons, ih acc hr]
    | parsed j =>
      cases he : extractMsgContent j with
      | absent => simp [streamLoop, he, lineYield, List.filterMap_cons, ih acc hr]
      | raises => simp [lineOk, he] at hl
      | found v =>
        cases v with
        | str c =>
          simp [streamLoop, he, lineYield, List.filterMap_cons, accumOutputs,
            ih (acc ++ c) hr]
        | null => simp [lineOk, he] at hl
        | bool b => simp [lineOk, he] at hl
        | num n => simp [lineOk, he] at hl
        | arr xs => simp [lineOk, he] at hl
        | obj fs => simp [lineOk, he] at hl

/-- Every element emitted by the streaming loop body carries is_error = False. -/
theorem streamLoop_false :
    ∀ (lines : List RawLine) (acc : String) (p : String × Bool),
      p ∈ (streamLoop acc lines).1 → p.2 = false := by
  intro lines
  induction lines with
  | nil => intro acc p hp; simp [streamLoop] at hp
  | cons l rest ih =>
    intro acc p hp
    cases l with
    | blank => exact ih acc p (by simpa [streamLoop] using hp)
    | malformed => exact ih acc p (by simpa [streamLoop] using hp)
    | parsed j =>
      cases he : extractMsgContent j with
      | absent => exact ih acc p (by simpa [streamLoop, he] using hp)
      | raises => simp [streamLoop, he] at hp
      | found v =>
        cases v with
        | str c =>
          simp only [streamLoop, he] at hp
          rcases List.mem_cons.mp hp with h1 | h1
          · rw [h1]
          · exact ih (acc ++ c) p h1
        | null => simp [streamLoop, he] at hp
        | bool b => simp [streamLoop, he] at hp
        | num n => simp [streamLoop, he] at hp
        | arr xs => simp [streamLoop, he] at hp
        | obj fs => simp [streamLoop, he] at hp

/-- Every accumulated-output element carries is_error = False. -/
theorem accumOutputs_false :
    ∀ (cs : List String) (acc : String) (p : String × Bool),
      p ∈ accumOutputs acc cs → p.2 = false := by
  intro cs
  induction cs with
  | nil => intro acc p hp; simp [accumOutputs] at hp
  | cons c cs ih =>
    intro acc p hp
    simp only [accumOutputs] at hp
    rcases List.mem_cons.mp hp with h1 | h1
    · rw [h1]
    · exact ih (acc ++ c) p h1

/-- The accumulated outputs have one element per content chunk. -/
theorem accumOutputs_length :
    ∀ (cs : List String) (acc : String), (accumOutputs acc cs).length = cs.length := by
  intro cs
  induction cs with
  | nil => intro acc; rfl
  | cons c cs ih => intro acc; simp [accumOutputs, ih (acc ++ c)]

/-- The element at index i of the accumulated outputs is the concatenation of the
first i + 1 content chunks appended to the starting accumulator, paired with
False. -/
theorem accumOutputs_getElem :
    ∀ (cs : List String) (acc : String) (i : Nat), i < cs.length →
      (accumOutputs acc cs)[i]? = some (acc ++ concatAll (cs.take (i + 1)), false) := by
  intro cs
  induction cs with
  | nil => intro acc i h; simp at h
  | cons c cs ih =>
    intro acc i h
    cases i with
    | zero => simp [accumOutputs, concatAll, String.append_empty]
    | succ i =>
      have hi : i < cs.length := by simpa using h
      simp [accumOutputs, concatAll, ih (acc ++ c) i hi, String.append_assoc]

/-- Consuming a run of accumulated outputs leaves full_response at the full
concatenation and is_error last bound to False. -/
theorem consumeLoop_accum :
    ∀ (cs : List String) (acc x : String), cs ≠ [] →
      consumeLoop x (accumOutputs acc cs) = (acc ++ concatAll cs, some false) := by
  intro cs
  induction cs with
  | nil => intro acc x h; exact absurd rfl h
  | cons c cs ih =>
    intro acc x h
    cases cs with
    | nil => simp [accumOutputs, consumeLoop, concatAll, String.append_empty]
    | cons c2 cs2 =>
      have hr := ih (acc ++ c) (acc ++ c) (by simp)
      have step : consumeLoop x (accumOutputs acc (c :: c2 :: cs2))
          = match consumeLoop (acc ++ c) (accumOutputs (acc ++ c) (c2 :: cs2)) with
            | (f, none) => (f, some false)
            | (f, some b) => (f, some b) := rfl
      rw [step, hr]
      simp [concatAll, String.append_assoc]

/-- Consuming an all-False run followed by a single error element binds is_error
last to True (the break branch). -/
theorem consumeLoop_err :
    ∀ (out : List (String × Bool)) (x m : String),
      (∀ p ∈ out, p.2 = false) →
      ∃ f, consumeLoop x (out ++ [(m, true)]) = (f, some true) := by
  intro out
  induction out with
  | nil => intro x m h; exact ⟨x, rfl⟩
  | cons p out ih =>
    intro x m h
    obtain ⟨c, b⟩ := p
    have hb : b = false := h (c, b) (List.mem_cons_self _ _)
    subst hb
    obtain ⟨f, hf⟩ := ih c m fun q hq => h q (List.mem_cons_of_mem _ hq)
    exact ⟨f, by simp [consumeLoop, hf]⟩

/-- On a clean exchange the streamed sequence is exactly the accumulated outputs
of the content chunks. -/
theorem send_message_stream_clean (s : StreamScript)
    (h1 : s.transport = none) (h2 : ∀ l ∈ s.lines, lineOk l = true) :
    send_message_stream s = accumOutputs "" (s.lines.filterMap lineYield) := by
  simp [send_message_stream, streamLoop_clean s.lines "" h2, h1]

/-- Catalog data lines that are all non-blank are mapped to their first tokens in
order. -/
theorem modelsOfLines_map :
    ∀ (ds : List String), (∀ l ∈ ds, stripChars l.data ≠ []) →
      modelsOfLines ds = ds.map firstToken := by
  intro ds
  induction ds with
  | nil => intro h; rfl
  | cons d ds ih =>
    intro h
    have hd := h d (List.mem_cons_self _ _)
    simp [modelsOfLines, hd, ih fun x hx => h x (List.mem_cons_of_mem _ hx)]

/-- Rebuilding each chat message from its role and content is the identity (the
api_messages comprehension of main copies the transcript verbatim). -/
theorem chatMap_id :
    ∀ (l : List ChatMessage), l.map (fun m => ChatMessage.mk m.role m.content) = l := by
  intro l
  induction l with
  | nil => rfl
  | cons m l ih => obtain ⟨r, c⟩ := m; simp [ih]

/-! Claim theorems. -/

/-- C1: on a streamed response whose transport succeeds and whose lines each
process cleanly (blank, failing JSON decoding, guard false, or a string
content chunk), send_message with stream=True yields one element per line
contributing a content string, the i-th element being the concatenation of
the first i + 1 content strings in arrival order paired with False; lines
failing to decode contribute no element and cause no failure. -/
theorem c1_stream_accumulator (s : StreamScript)
    (h1 : s.transport = none) (h2 : ∀ l ∈ s.lines, lineOk l = true) :
    (send_message_stream s).length = (s.lines.filterMap lineYield).length
    ∧ ∀ i < (s.lines.filterMap lineYield).length,
        (send_message_stream s)[i]?
          = some (concatAll ((s.lines.filterMap lineYield).take (i + 1)), false) := by
  have hs := send_message_stream_clean s h1 h2
  constructor
  · rw [hs]
    exact accumOutputs_length _ ""
  · intro i hi
    rw [hs, accumOutputs_getElem _ "" i hi, String.empty_append]

/-- Witness for C1: the streamed lines of the spec example, with an unparsable
line between two content chunks. -/
theorem c1_stream_accumulator_witness :
    (send_message_stream
        ⟨[RawLine.parsed (.obj [("message", .obj [("content", .str "Hel")])]),
          RawLine.malformed,
          RawLine.parsed (.obj [("message", .obj [("content", .str "!")])])], none, ""⟩).length
      = ((([RawLine.parsed (.obj [("message", .obj [("content", .str "Hel")])]),
          RawLine.malformed,
          RawLine.parsed (.obj [("message", .obj [("content", .str "!")])])] :
            List RawLine)).filterMap lineYield).length
    ∧ ∀ i < ((([RawLine.parsed (.obj [("message", .obj [("content", .str "Hel")])]),
          RawLine.malformed,
          RawLine.parsed (.obj [("message", .obj [("content", .str "!")])])] :
            List RawLine)).filterMap lineYield).length,
        (send_message_stream
          ⟨[RawLine.parsed (.obj [("message", .obj [("content", .str "Hel")])]),
            RawLine.malformed,
            RawLine.parsed (.obj [("message", .obj [("content", .str "!")])])], none, ""⟩)[i]?
          = some (concatAll (((([RawLine.parsed (.obj [("message", .obj [("content", .str "Hel")])]),
              RawLine.malformed,
              RawLine.parsed (.obj [("message", .obj [("content", .str "!")])])] :
                List RawLine)).filterMap lineYield).take (i + 1)), false) :=
  c1_stream_accumulator
    ⟨[RawLine.parsed (.obj [("message", .obj [("content", .str "Hel")])]),
      RawLine.malformed,
      RawLine.parsed (.obj [("message", .obj [("content", .str "!")])])], none, ""⟩
    rfl (by decide)

/-- C2: on a streamed turn whose transport raises (connection failure or
raise_for_status on a non-2xx status) after any run of cleanly processed
lines, the yielded sequence is the accumulated chunk elements followed by
exactly one final (str(e), True) element, and every element before it
carries False — no False element follows a True one. -/
theorem c2_stream_transport_error (s : StreamScript) (m : String)
    (h1 : s.transport = some m) (h2 : ∀ l ∈ s.lines, lineOk l = true) :
    send_message_stream s
        = accumOutputs "" (s.lines.filterMap lineYield) ++ [(m, true)]
    ∧ ∀ p ∈ accumOutputs "" (s.lines.filterMap lineYield), p.2 = false := by
  constructor
  · simp [send_message_stream, streamLoop_clean s.lines "" h2, h1]
  · exact fun p hp => accumOutputs_false _ "" p hp

/-- Witness for C2: one content chunk, then a connection failure. -/
theorem c2_stream_transport_error_witness :
    send_message_stream
        ⟨[RawLine.parsed (.obj [("message", .obj [("content", .str "Hel")])])],
          some "connection refused", ""⟩
      = accumOutputs ""
          ((([RawLine.parsed (.obj [("message", .obj [("content", .str "Hel")])])] :
            List RawLine)).filterMap lineYield) ++ [("connection refused", true)]
    ∧ ∀ p ∈ accumOutputs ""
        ((([RawLine.parsed (.obj [("message", .obj [("content", .str "Hel")])])] :
          List RawLine)).filterMap lineYield), p.2 = false :=
  c2_stream_transport_error
    ⟨[RawLine.parsed (.obj [("message", .obj [("content", .str "Hel")])])],
      some "connection refused", ""⟩
    "connection refused" rfl (by decide)

/-- C3: on a turn whose streamed sequence ends with an error element (a raised
processing exception or a transport failure), the transcript after the turn
is the transcript before it plus exactly the new user message; no assistant
message is committed, however much partial text was accumulated. -/
theorem c3_error_turn_transcript (messages : List ChatMessage) (u : String)
    (s : StreamScript) (h : endsWithError s = true) :
    (runTurn messages u s).result
      = Except.ok (messages ++ [ChatMessage.mk "user" u]) := by
  have hout : ∀ p ∈ (streamLoop "" s.lines).1, p.2 = false :=
    fun p hp => streamLoop_false s.lines "" p hp
  rcases hsl : streamLoop "" s.lines with ⟨out, flag⟩
  rw [hsl] at hout
  have hsend : ∃ e, send_message_stream s = out ++ [(e, true)] := by
    cases flag with
    | true => exact ⟨s.excText, by simp [send_message_stream, hsl]⟩
    | false =>
      simp only [endsWithError, hsl, Bool.false_or] at h
      obtain ⟨m, hm⟩ := Option.isSome_iff_exists.mp h
      exact ⟨m, by simp [send_message_stream, hsl, hm]⟩
  obtain ⟨e, he⟩ := hsend
  obtain ⟨f, hf⟩ := consumeLoop_err out "" e hout
  simp [runTurn, he, hf]

/-- Witness for C3: a turn accumulating partial text before the transport fails
commits only the user message. -/
theorem c3_error_turn_transcript_witness :
    (runTurn []
        "hi"
        ⟨[RawLine.parsed (.obj [("message", .obj [("content", .str "Hel")])])],
          some "connection reset", ""⟩).result
      = Except.ok [ChatMessage.mk "user" "hi"] :=
  c3_error_turn_transcript [] "hi"
    ⟨[RawLine.parsed (.obj [("message", .obj [("content", .str "Hel")])])],
      some "connection reset", ""⟩
    (by decide)

/-- C10: when the streamed sequence of a turn yields zero elements (no parseable
chunk line and no transport error), the post-loop commit check of main reads
the never-assigned loop variable is_error, so the turn handler raises
NameError instead of completing the turn. -/
theorem c10_empty_stream_unbound (messages : List ChatMessage) (u : String)
    (s : StreamScript) (h : send_message_stream s = []) :
    (runTurn messages u s).result = Except.error nameErrText := by
  simp [runTurn, h, consumeLoop]

/-- Witness for C10: an HTTP 200 response whose body ends without any parseable
chunk line. -/
theorem c10_empty_stream_unbound_witness :
    (runTurn [] "hi" ⟨[], none, ""⟩).result = Except.error nameErrText :=
  c10_empty_stream_unbound [] "hi" ⟨[], none, ""⟩ rfl

/-- A clean turn appends exactly the user message and then the assistant message
holding the concatenated chunk contents. -/
theorem runTurn_clean (messages : List ChatMessage) (u : String) (s : StreamScript)
    (h : cleanScript s) :
    (runTurn messages u s).result
      = Except.ok (messages ++ [ChatMessage.mk "user" u,
          ChatMessage.mk "assistant" (concatAll (s.lines.filterMap lineYield))]) := by
  obtain ⟨h1, h2, h3⟩ := h
  have hs := send_message_stream_clean s h1 h2
  have hc := consumeLoop_accum (s.lines.filterMap lineYield) "" "" h3
  rw [String.empty_append] at hc
  simp [runTurn, hs, hc]

/-- Clean turns build the transcript turn by turn. -/
theorem runTurns_clean :
    ∀ (turns : List (String × StreamScript)) (messages : List ChatMessage),
      (∀ p ∈ turns, cleanScript p.2) →
      runTurns messages turns = Except.ok (messages ++ turnsTranscript turns) := by
  intro turns
  induction turns with
  | nil => intro messages h; simp [runTurns, turnsTranscript]
  | cons t rest ih =>
    intro messages h
    obtain ⟨u, s⟩ := t
    have ht : cleanScript s := h (u, s) (List.mem_cons_self _ _)
    have hr := ih (messages ++ [ChatMessage.mk "user" u,
        ChatMessage.mk "assistant" (concatAll (s.lines.filterMap lineYield))])
      fun q hq => h q (List.mem_cons_of_mem _ hq)
    simp [runTurns, runTurn_clean messages u s ht, turnsTranscript, hr]

/-- The transcript of N clean turns has exactly 2N messages. -/
theorem turnsTranscript_length :
    ∀ (turns : List (String × StreamScript)),
      (turnsTranscript turns).length = 2 * turns.length := by
  intro turns
  induction turns with
  | nil => rfl
  | cons t rest ih =>
    obtain ⟨u, s⟩ := t
    simp [turnsTranscript, ih]
    omega

/-- C5: over any sequence of N conversational turns each completing without error
(and yielding at least one chunk), the transcript after the N-th turn is
exactly one user message followed by one assistant message per turn, in
submission order, hence of length 2N; and the api_messages payload posted on
a turn is the previous transcript plus exactly the one new user message. -/
theorem c5_transcript_roundtrip (turns : List (String × StreamScript))
    (h : ∀ p ∈ turns, cleanScript p.2) :
    runTurns [] turns = Except.ok (turnsTranscript turns)
    ∧ (turnsTranscript turns).length = 2 * turns.length
    ∧ ∀ (messages : List ChatMessage) (u : String) (s : StreamScript),
        (runTurn messages u s).sent = messages ++ [ChatMessage.mk "user" u] := by
  refine ⟨?_, turnsTranscript_length turns, ?_⟩
  · simpa using runTurns_clean turns [] h
  · intro messages u s
    simp [runTurn, chatMap_id]

/-- Witness for C5: two clean turns produce the four-message transcript in
order. -/
theorem c5_transcript_roundtrip_witness :
    runTurns []
        [("hi", ⟨[RawLine.parsed (.obj [("message", .obj [("content", .str "Hel")])]),
            RawLine.parsed (.obj [("message", .obj [("content", .str "lo")])])], none, ""⟩),
         ("and", ⟨[RawLine.parsed (.obj [("message", .obj [("content", .str "!")])])], none, ""⟩)]
      = Except.ok [ChatMessage.mk "user" "hi", ChatMessage.mk "assistant" "Hello",
          ChatMessage.mk "user" "and", ChatMessage.mk "assistant" "!"] := by
  have h := c5_transcript_roundtrip
    [("hi", ⟨[RawLine.parsed (.obj [("message", .obj [("content", .str "Hel")])]),
        RawLine.parsed (.obj [("message", .obj [("content", .str "lo")])])], none, ""⟩),
     ("and", ⟨[RawLine.parsed (.obj [("message", .obj [("content", .str "!")])])], none, ""⟩)]
    (by decide)
  rw [h.1]
  have h2 : turnsTranscript
      [("hi", ⟨[RawLine.parsed (.obj [("message", .obj [("content", .str "Hel")])]),
          RawLine.parsed (.obj [("message", .obj [("content", .str "lo")])])], none, ""⟩),
       ("and", ⟨[RawLine.parsed (.obj [("message", .obj [("content", .str "!")])])], none, ""⟩)]
      = [ChatMessage.mk "user" "hi", ChatMessage.mk "assistant" "Hello",
          ChatMessage.mk "user" "and", ChatMessage.mk "assistant" "!"] := by decide
  rw [h2]

/-- C4 (the code contradicts the claimed blocking contract): send_message
contains yield, so the call with stream=False returns a generator object that
yields no element - the caller never receives a (fullText, isError) pair as
the call's result. Evaluated at a well-shaped response body, the exhausted
generator yields the empty element list and carries the pair the claim
promised - (content, False), or the fixed diagnostic with True when
message/content is missing - only inside the StopIteration value. -/
theorem c4_nonstream_generator :
    send_message_nonstream "exc"
        (.body (.obj [("message", .obj [("content", .str "Hello")])]))
      = ([], (.str "Hello", false))
    ∧ send_message_nonstream "exc" (.body (.obj [("done", .bool true)]))
      = ([], (.str "Unexpected response format", true)) :=
  ⟨rfl, rfl⟩

/-- C6: on an input starting with the literal trigger, whose first occurrence of
the three-quote delimiter at or after offset 12 is at position ps and whose
first occurrence starting after that delimiter ends is at position pe, the
command handling produces a system-prompt update whose text is exactly the
characters strictly between the two delimiters, verbatim; when the two
delimiters are adjacent the extraction is empty and the system prompt is set
to the empty string. -/
theorem c6_set_system_extract (input : String) (ps pe : Nat)
    (h0 : startsWithChars cmdChars input.data = true)
    (h1 : 12 ≤ ps)
    (h2 : startsWithChars tq (input.data.drop ps) = true)
    (h3 : ∀ j < ps, 12 ≤ j → startsWithChars tq (input.data.drop j) = false)
    (h4 : ps + 3 ≤ pe)
    (h5 : startsWithChars tq (input.data.drop pe) = true)
    (h6 : ∀ j < pe, ps + 3 ≤ j → startsWithChars tq (input.data.drop j) = false) :
    parseInput input
        = ParseResult.systemPromptUpdate (String.mk ((input.data.take pe).drop (ps + 3)))
    ∧ (pe = ps + 3 →
        ∀ (st : SessionState) (sc : StreamScript),
          handleInput st input sc = Except.ok { st with system_prompt := "" }) := by
  have ha : startsWithChars tq ((input.data.drop 12).drop (ps - 12)) = true := by
    rw [List.drop_drop]
    have h12 : 12 + (ps - 12) = ps := by omega
    rw [h12]
    exact h2
  have hb : ∀ e < ps - 12, startsWithChars tq ((input.data.drop 12).drop e) = false := by
    intro e he
    rw [List.drop_drop]
    exact h3 (12 + e) (by omega) (by omega)
  have hfind1 : findOcc tq (input.data.drop 12) 12 = some ps := by
    have := findOcc_some tq (input.data.drop 12) (ps - 12) 12 ha hb
    rw [this]
    congr 1
    omega
  have hc : startsWithChars tq ((input.data.drop (ps + 3)).drop (pe - (ps + 3))) = true := by
    rw [List.drop_drop]
    have heq : ps + 3 + (pe - (ps + 3)) = pe := by omega
    rw [heq]
    exact h5
  have hd : ∀ e < pe - (ps + 3),
      startsWithChars tq ((input.data.drop (ps + 3)).drop e) = false := by
    intro e he
    rw [List.drop_drop]
    exact h6 (ps + 3 + e) (by omega) (by omega)
  have hfind2 : findOcc tq (input.data.drop (ps + 3)) (ps + 3) = some pe := by
    have := findOcc_some tq (input.data.drop (ps + 3)) (pe - (ps + 3)) (ps + 3) hc hd
    rw [this]
    congr 1
    omega
  have hparse : parseInput input
      = ParseResult.systemPromptUpdate (String.mk ((input.data.take pe).drop (ps + 3))) := by
    simp [parseInput, h0, hfind1, hfind2]
  refine ⟨hparse, ?_⟩
  intro hpe st sc
  have hemp : (input.data.take pe).drop (ps + 3) = [] := by
    apply List.drop_eq_nil_of_le
    calc (input.data.take pe).length ≤ pe := List.length_take_le pe input.data
    _ = ps + 3 := hpe
  rw [hemp] at hparse
  simp [handleInput, hparse]

/-- Witness for C6: the spec example extracts the verbatim prompt text. -/
theorem c6_set_system_extract_witness :
    parseInput "/set system \"\"\"Be concise.\"\"\""
      = ParseResult.systemPromptUpdate "Be concise." := by
  have h := c6_set_system_extract "/set system \"\"\"Be concise.\"\"\"" 12 26
    (by decide) (by decide) (by decide) (by decide) (by decide) (by decide) (by decide)
  exact h.1.trans (by decide)

/-- C7: on an input starting with the trigger but with no occurrence of the
delimiter at or after offset 12 (respectively a first delimiter but no
second occurrence after its end), the command handling reports the missing
opening (respectively closing) delimiter and mutates nothing: the system
prompt and the transcript are returned unchanged. -/
theorem c7_set_system_errors (input : String)
    (h0 : startsWithChars cmdChars input.data = true) :
    ((∀ j < input.data.length, 12 ≤ j →
        startsWithChars tq (input.data.drop j) = false) →
      parseInput input = ParseResult.parseError "missing opening delimiter"
      ∧ ∀ (st : SessionState) (sc : StreamScript),
          handleInput st input sc = Except.ok st)
    ∧ (∀ ps, 12 ≤ ps →
        startsWithChars tq (input.data.drop ps) = true →
        (∀ j < ps, 12 ≤ j → startsWithChars tq (input.data.drop j) = false) →
        (∀ j < input.data.length, ps + 3 ≤ j →
          startsWithChars tq (input.data.drop j) = false) →
      parseInput input = ParseResult.parseError "missing closing delimiter"
      ∧ ∀ (st : SessionState) (sc : StreamScript),
          handleInput st input sc = Except.ok st) := by
  constructor
  · intro hbound
    have hall : ∀ d, startsWithChars tq ((input.data.drop 12).drop d) = false := by
      intro d
      rw [List.drop_drop]
      by_cases hlen : 12 + d < input.data.length
      · exact hbound (12 + d) hlen (by omega)
      · have hnil : input.data.drop (12 + d) = [] := List.drop_eq_nil_of_le (by omega)
        rw [hnil]
        decide
    have hfind : findOcc tq (input.data.drop 12) 12 = none :=
      findOcc_none tq (input.data.drop 12) 12 hall
    have hparse : parseInput input = ParseResult.parseError "missing opening delimiter" := by
      simp [parseInput, h0, hfind]
    exact ⟨hparse, fun st sc => by simp [handleInput, hparse]⟩
  · intro ps hps h2 h3 hbound
    have ha : startsWithChars tq ((input.data.drop 12).drop (ps - 12)) = true := by
      rw [List.drop_drop]
      have h12 : 12 + (ps - 12) = ps := by omega
      rw [h12]
      exact h2
    have hb : ∀ e < ps - 12, startsWithChars tq ((input.data.drop 12).drop e) = false := by
      intro e he
      rw [List.drop_drop]
      exact h3 (12 + e) (by omega) (by omega)
    have hfind1 : findOcc tq (input.data.drop 12) 12 = some ps := by
      have := findOcc_some tq (input.data.drop 12) (ps - 12) 12 ha hb
      rw [this]
      congr 1
      omega
    have hall : ∀ d, startsWithChars tq ((input.data.drop (ps + 3)).drop d) = false := by
      intro d
      rw [List.drop_drop]
      by_cases hlen : ps + 3 + d < input.data.length
      · exact hbound (ps + 3 + d) hlen (by omega)
      · have hnil : input.data.drop (ps + 3 + d) = [] := List.drop_eq_nil_of_le (by omega)
        rw [hnil]
        decide
    have hfind2 : findOcc tq (input.data.drop (ps + 3)) (ps + 3) = none :=
      findOcc_none tq (input.data.drop (ps + 3)) (ps + 3) hall
    have hparse : parseInput input = ParseResult.parseError "missing closing delimiter" := by
      simp [parseInput, h0, hfind1, hfind2]
    exact ⟨hparse, fun st sc => by simp [handleInput, hparse]⟩

/-- Witness for C7: the spec example without quotes, and a command with an
unclosed delimiter; both leave any session state untouched. -/
theorem c7_set_system_errors_witness :
    parseInput "/set system no quotes" = ParseResult.parseError "missing opening delimiter"
    ∧ parseInput "/set system \"\"\"oops" = ParseResult.parseError "missing closing delimiter"
    ∧ handleInput ⟨[ChatMessage.mk "user" "x"], "old"⟩ "/set system no quotes" ⟨[], none, ""⟩
        = Except.ok ⟨[ChatMessage.mk "user" "x"], "old"⟩ := by
  refine ⟨((c7_set_system_errors "/set system no quotes" (by decide)).1 (by decide)).1, ?_, ?_⟩
  · exact ((c7_set_system_errors "/set system \"\"\"oops" (by decide)).2 12
      (by decide) (by decide) (by decide) (by decide)).1
  · exact ((c7_set_system_errors "/set system no quotes" (by decide)).1 (by decide)).2
      ⟨[ChatMessage.mk "user" "x"], "old"⟩ ⟨[], none, ""⟩

/-- C8: on a well-formed catalog output that strips and splits into a header line
followed by N non-blank data lines, get_ollama_models returns exactly N
identifiers, in file order, each the first whitespace-delimited token of its
data line (and no error notice); zero data lines yield the empty sequence,
not a failure. -/
theorem c8_list_models (out header : String) (dataLines : List String)
    (hsplit : (splitOnPred (fun c => c = '\n') (stripChars out.data)).map String.mk
        = header :: dataLines)
    (hnb : ∀ l ∈ dataLines, stripChars l.data ≠ []) :
    get_ollama_models (.output out) = (dataLines.map firstToken, false)
    ∧ (dataLines.map firstToken).length = dataLines.length := by
  constructor
  · simp [get_ollama_models, hsplit, modelsOfLines_map dataLines hnb]
  · simp

/-- Witness for C8: a two-model catalog and a header-only catalog. -/
theorem c8_list_models_witness :
    get_ollama_models (.output "NAME ID SIZE\nllama2:latest abc 3.8GB\nmistral:7b def 4.1GB")
      = (["llama2:latest", "mistral:7b"], false)
    ∧ get_ollama_models (.output "NAME ID SIZE MODIFIED") = ([], false) := by
  constructor
  · have h := c8_list_models "NAME ID SIZE\nllama2:latest abc 3.8GB\nmistral:7b def 4.1GB"
      "NAME ID SIZE" ["llama2:latest abc 3.8GB", "mistral:7b def 4.1GB"]
      (by decide) (by decide)
    exact h.1.trans (by decide)
  · have h := c8_list_models "NAME ID SIZE MODIFIED" "NAME ID SIZE MODIFIED" []
      (by decide) (by decide)
    exact h.1.trans (by decide)

/-- Counterexample for C9: when the enumeration command fails, get_ollama_models
returns the empty list — the very same sequence returned for a zero-model
catalog — so the failure is not a distinguishable return value. -/
theorem c9_catalog_failure_counterexample :
    (get_ollama_models (CmdResult.failure "ollama: command not found")).1 = []
    ∧ (get_ollama_models (CmdResult.failure "ollama: command not found")).1
        = (get_ollama_models (CmdResult.output "NAME ID SIZE MODIFIED")).1 := by
  exact ⟨rfl, by decide⟩

/-- C9 as amended: a failed enumeration displays an error notice (st.error) and
returns the empty list, while a zero-model catalog returns the empty list
with no notice; the failure is distinguishable only by the displayed notice,
not by the returned sequence. -/
theorem c9_catalog_failure_amended (m out header : String)
    (hsplit : (splitOnPred (fun c => c = '\n') (stripChars out.data)).map String.mk
        = [header]) :
    get_ollama_models (CmdResult.failure m) = ([], true)
    ∧ get_ollama_models (CmdResult.output out) = ([], false) := by
  refine ⟨rfl, ?_⟩
  simp [get_ollama_models, hsplit, modelsOfLines]

/-- Witness for the amended C9. -/
theorem c9_catalog_failure_amended_witness :
    get_ollama_models (CmdResult.failure "ollama: command not found") = ([], true)
    ∧ get_ollama_models (CmdResult.output "NAME ID SIZE MODIFIED") = ([], false) :=
  c9_catalog_failure_amended "ollama: command not found" "NAME ID SIZE MODIFIED"
    "NAME ID SIZE MODIFIED" (by decide)

end Slitchat
